import Mathlib

/-!
# Verification of the unoserver filter-resolution and conversion engine

Shallow embedding of `src/unoserver/converter.py` (the `UnoConverter` class
and its module-level helpers) and proofs about the spec's claims.

The remote LibreOffice engine (UNO bridge, desktop, filter factory, type
detection, filesystem) is modelled by an explicit `Env` record of
uninterpreted behaviours; the mutable cache fields `_import_filters` /
`_export_filters` of `UnoConverter` are modelled by an explicit `ConvState`
threaded through the operations; exceptions are modelled with `Except`;
side effects relevant to the claims (loading a document, closing it,
storing the export) are recorded in an explicit event trace.
-/

set_option linter.unusedVariables false

namespace Unoserver

/-- Equality of `Except` results is decidable when both sides are; used to
evaluate concrete runs of the embedded code. -/
instance {ε α : Type} [DecidableEq ε] [DecidableEq α] : DecidableEq (Except ε α) := fun x y =>
  match x, y with
  | .ok a, .ok b => if h : a = b then .isTrue (by rw [h]) else .isFalse (by simp [h])
  | .error a, .error b => if h : a = b then .isTrue (by rw [h]) else .isFalse (by simp [h])
  | .ok _, .error _ => .isFalse (by simp)
  | .error _, .ok _ => .isFalse (by simp)

/-- A Python `dict` with string keys and string values, modelled as an
association list whose most recent insertion sits at the head.  `dinsert`
is the statement `d[k] = v`; `dlookup` finds the most recently inserted
binding for a key, which is exactly the value Python's `d[k]` returns after
a sequence of assignments (later assignments overwrite earlier ones). -/
abbrev Dict := List (String × String)

/-- `d[k] = v` (later assignments win on lookup). -/
def dinsert (d : Dict) (k v : String) : Dict := (k, v) :: d

/-- `d[k]` (the most recently assigned value for `k`), or `none` if `k`
is not a key. -/
def dlookup (d : Dict) (k : String) : Option String :=
  (d.find? (fun p => p.1 == k)).map Prod.snd

/-- `k in d`. -/
def dmem (d : Dict) (k : String) : Bool := d.any (fun p => p.1 == k)

/-- `sorted(d.keys())`: the distinct keys of the dict in ascending order. -/
def sortedKeys (d : Dict) : List String :=
  List.insertionSort (fun a b => a ≤ b) (d.map Prod.fst).dedup

/-- One filter descriptor, as produced by `prop2dict` from the engine's
filter catalog enumeration: the dictionary keys the converter reads.  The
source's `"Type"` key is named `TypeName` here because `Type` is a Lean
keyword; `"Name"`, `"DocumentService"` and `"UserData"` keep their names. -/
structure FilterDesc where
  Name : String
  DocumentService : String
  TypeName : String
  UserData : List String
deriving DecidableEq

/-- The module-level `DOC_TYPES` set.  The Python value is a `set`; it is
modelled as a duplicate-free list in the source's literal order, and the
arbitrary iteration order of the set is modelled as this fixed order. -/
def DOC_TYPES : List String := [
  "com.sun.star.sheet.SpreadsheetDocument",
  "com.sun.star.text.TextDocument",
  "com.sun.star.presentation.PresentationDocument",
  "com.sun.star.drawing.DrawingDocument",
  "com.sun.star.sdb.DocumentDataSource",
  "com.sun.star.formula.FormulaProperties",
  "com.sun.star.script.BasicIDE",
  "com.sun.star.text.WebDocument"]

/-- `DOC_TYPES.intersection(names)`, as the sublist of `DOC_TYPES` whose
members occur in `names` (set intersection, iterated in the fixed order). -/
def docTypeIntersection (names : List String) : List String :=
  DOC_TYPES.filter (fun t => names.contains t)

/-- `get_doc_type(doc)` over the document's supported service names:
returns `types.pop()` — an element of the intersection, modelled as the
first in the fixed iteration order — or raises `RuntimeError` when the
intersection is empty. -/
def get_doc_type (names : List String) : Except String String :=
  match docTypeIntersection names with
  | t :: _ => .ok t
  | [] => .error "The input document is of an unknown document type. This is probably a bug."

/-- The predicate of the `filter(lambda x: x and x != "true" and "." not in x, ...)`
guard in `get_filter_names`: keep a `UserData` entry when it is non-empty
(Python truthiness of a string), not the literal `"true"`, and does not
contain a `"."`. -/
def userDataKeep (x : String) : Bool :=
  !(x == "") && !(x == "true") && !(x.toList.contains '.')

/-- The inner loop of `get_filter_names`: for each kept `UserData` entry
`name`, execute `names[name] = flt["Name"]`. -/
def addUserData (acc : Dict) (fname : String) : List String → Dict
  | [] => acc
  | x :: rest => addUserData (if userDataKeep x then dinsert acc x fname else acc) fname rest

/-- The outer loop of `get_filter_names`: for each filter, first
`names[flt["Name"]] = flt["Name"]` (unconditionally), then the `UserData`
loop. -/
def get_filter_names_aux (acc : Dict) : List FilterDesc → Dict
  | [] => acc
  | flt :: rest =>
      get_filter_names_aux (addUserData (dinsert acc flt.Name flt.Name) flt.Name flt.UserData) rest

/-- `UnoConverter.get_filter_names(filters)`. -/
def get_filter_names (filters : List FilterDesc) : Dict :=
  get_filter_names_aux [] filters

/-- The loop body of `UnoConverter.find_filter` over an explicit filter
list: skip filters whose `DocumentService` differs from `import_type`,
skip filters whose `Type` differs from `export_type`, return the `Name`
of the first remaining one; `None` when the loop completes. -/
def find_filter_list (filters : List FilterDesc) (import_type export_type : String) :
    Option String :=
  match filters with
  | [] => none
  | f :: rest =>
    if f.DocumentService ≠ import_type then find_filter_list rest import_type export_type
    else if f.TypeName ≠ export_type then find_filter_list rest import_type export_type
    else some f.Name

/-- The mutable cache fields of a `UnoConverter` instance:
`self._import_filters` and `self._export_filters`, each `None` until the
corresponding catalog query has run. -/
structure ConvState where
  import_filters : Option (List FilterDesc)
  export_filters : Option (List FilterDesc)
deriving DecidableEq

/-- `UnoConverter.get_available_import_filters`.  The remote query
`createSubSetEnumerationByQuery("getSortedFilterList():iflags=1")` and the
`prop2dict` collection loop are modelled by `env`'s `importCatalog`; the
returned boolean records whether the remote catalog query was triggered
(it is skipped exactly when the cache field is already populated). -/
def get_available_import_filters (importCatalog : List FilterDesc) (s : ConvState) :
    List FilterDesc × ConvState × Bool :=
  match s.import_filters with
  | some cached => (cached, s, false)
  | none => (importCatalog, { s with import_filters := some importCatalog }, true)

/-- `UnoConverter.get_available_export_filters` (query
`"getSortedFilterList():iflags=2"`), cached in `self._export_filters`. -/
def get_available_export_filters (exportCatalog : List FilterDesc) (s : ConvState) :
    List FilterDesc × ConvState × Bool :=
  match s.export_filters with
  | some cached => (cached, s, false)
  | none => (exportCatalog, { s with export_filters := some exportCatalog }, true)

/-- `UnoConverter.find_filter(import_type, export_type)`: scans the list
returned by `get_available_export_filters` (populating the cache on first
use) for the first filter matching both fields. -/
def find_filter (exportCatalog : List FilterDesc) (s : ConvState)
    (import_type export_type : String) : Option String × ConvState :=
  match get_available_export_filters exportCatalog s with
  | (filters, s1, _) => (find_filter_list filters import_type export_type, s1)

/-- A scalar value carried by a `com.sun.star.beans.PropertyValue` built
from an option string: the value-coercion chain only ever produces a
boolean, an int, or a string. -/
inductive ScalarValue where
  | str (s : String)
  | bool (b : Bool)
  | int (i : Int)
deriving DecidableEq

/-- A value carried by a top-level `PropertyValue` of the load/store
property tuples: the converter only ever stores strings, booleans, ints,
and (for `FilterData`) a sequence of scalar-valued property values. -/
inductive UnoValue where
  | str (s : String)
  | bool (b : Bool)
  | int (i : Int)
  | propSeq (props : List (String × ScalarValue))
deriving DecidableEq

/-- Injection of a coerced option value into the top-level property-value
type. -/
def ScalarValue.toUno : ScalarValue → UnoValue
  | .str s => .str s
  | .bool b => .bool b
  | .int i => .int i

/-- Split a character list at its first `'='`, if any. -/
def splitEqChars : List Char → Option (List Char × List Char)
  | [] => none
  | c :: rest =>
    if c = '=' then some ([], rest)
    else
      match splitEqChars rest with
      | some (n, v) => some (c :: n, v)
      | none => none

/-- `option.split("=", maxsplit=1)` guarded by `"=" in option`: returns
`(some name, value)` split at the first `"="` when one occurs, and
`(none, option)` otherwise (the source keeps `option_name = None` and
`option_value = option` in that case). -/
def splitEq (option : String) : Option String × String :=
  match splitEqChars option.toList with
  | some (n, v) => (some (String.mk n), String.mk v)
  | none => (none, option)

/-- `option_value.isdecimal()`, with decimal digits modelled as the ASCII
digits: non-empty and all characters digits. -/
def isDecimalString (v : String) : Bool :=
  !(v == "") && v.toList.all Char.isDigit

/-- `int(option_value)` for a decimal string. -/
def decimalToNat (v : String) : Nat :=
  v.toList.foldl (fun acc c => 10 * acc + (c.toNat - 48)) 0

/-- The value-coercion chain applied to every `option_value` (named or
bare): the literal `"false"`/`"true"` become booleans, a decimal string
becomes an integer, anything else stays a string. -/
def coerceOptionValue (v : String) : ScalarValue :=
  if v == "false" then .bool false
  else if v == "true" then .bool true
  else if isDecimalString v then .int (decimalToNat v)
  else .str v

/-- The `for option in filter_options` loop: builds
`(export_filter_data, export_filter_options)`.  A named option becomes
`PropertyValue(Name=option_name, Value=coerced)` appended to
`export_filter_data`; a bare option becomes
`PropertyValue(Name="FilterOptions", Value=coerced)` appended to
`export_filter_options`; both lists preserve input order. -/
def parse_filter_options : List String → List (String × ScalarValue) × List (String × ScalarValue)
  | [] => ([], [])
  | option :: rest =>
    let nv := splitEq option
    let v := coerceOptionValue nv.2
    let acc := parse_filter_options rest
    match nv.1 with
    | some n => ((n, v) :: acc.1, acc.2)
    | none => (acc.1, ("FilterOptions", v) :: acc.2)

/-- The option-parsing loop as the spec's claim describes it (claim C2):
identical for named options, but a bare option is appended "as-is and
unchanged", that is, without the value coercion. -/
def parse_filter_options_claimed : List String → List (String × ScalarValue) × List (String × ScalarValue)
  | [] => ([], [])
  | option :: rest =>
    let nv := splitEq option
    let acc := parse_filter_options_claimed rest
    match nv.1 with
    | some n => ((n, coerceOptionValue nv.2) :: acc.1, acc.2)
    | none => (acc.1, ("FilterOptions", ScalarValue.str option) :: acc.2)

/-- The behaviour of one pass of the index-update loop, as observed from a
loaded document: `document.refresh()` / `document.getDocumentIndexes()`
raise `AttributeError` (the document supports neither interface), raise
some other exception `e`, or succeed yielding the indexes, where entry `i`
of `updates` is `some e` when `indexes.getByIndex(i).update()` raises `e`
and `none` when it succeeds. -/
inductive RefreshOutcome where
  | attrError
  | raises (e : String)
  | indexes (updates : List (Option String))
deriving DecidableEq

/-- A non-null document handle returned by `loadComponentFromURL`: its
`getSupportedServiceNames()` answer and the behaviour of the two
index-update passes (the document is mutable, so the passes may behave
differently). -/
structure Document where
  supportedServiceNames : List String
  refresh1 : RefreshOutcome
  refresh2 : RefreshOutcome
deriving DecidableEq

/-- The external collaborators of one `convert` call: the remote engine's
filter catalogs, the filesystem, path helpers, document load, output type
detection, document store, temp-file naming, and file reading. -/
structure Env where
  importCatalog : List FilterDesc
  exportCatalog : List FilterDesc
  pathExists : String → Bool
  abspath : String → String
  systemPathToFileUrl : String → String
  load : String → List (String × UnoValue) → Option Document
  queryTypeByURL : String → String
  storeResult : String → List (String × UnoValue) → Option String
  tempInName : String
  tempOutName : String → String
  readBytes : String → List Nat

/-- The remote-engine operations `convert` performs on the document, in
order: the trace lets the theorems talk about "the load was invoked",
"the handle was closed", and "the export was commanded". -/
inductive Event where
  | loadDocument (url : String)
  | closeDocument
  | store (url : String)
deriving DecidableEq

/-- The exceptions `convert` can raise, with the data interpolated into
their messages. -/
inductive ConvErr where
  | invalidImportFilter (name : String) (available : List String)
  | inputNotFound (path : String)
  | documentLoadFailure (inpath : String) (infiltername : String)
  | uncaughtEngineError (e : String)
  | unknownDocumentType
  | typeError
  | unknownExportType (extension : String)
  | invalidExportFilter (name : String) (available : List String)
  | filterResolutionFailure (import_type export_type : String)
  | storeFailure (e : String)
deriving DecidableEq

/-- The keyword arguments of `UnoConverter.convert`.  `indata` is only
ever written into the input temp file, which the model folds into the
resolved input path, so no claim depends on its value. -/
structure ConvertArgs where
  inpath : Option String
  indata : Option (List Nat)
  outpath : Option String
  convert_to : Option String
  filtername : Option String
  filter_options : List String
  update_index : Bool
  infiltername : Option String

/-- Lines 199–209: build `input_props`, starting from
`(PropertyValue(Name="ReadOnly", Value=True),)`.  When `infiltername` is
truthy (`if infiltername:` — `None` and `""` are both falsy), the import
alias table is built from the (possibly cached) import filters; a known
name appends `FilterName` mapped to its canonical filter name, an unknown
name raises `ValueError` listing `sorted(infilters.keys())`.  The Python
`if infiltername in infilters: ... infilters[infiltername]` pair is
modelled as one `dlookup`. -/
def buildInputProps (env : Env) (s : ConvState) (infiltername : Option String) :
    Except ConvErr (List (String × UnoValue)) × ConvState :=
  let base := [("ReadOnly", UnoValue.bool true)]
  match infiltername with
  | none => (.ok base, s)
  | some name =>
    if name = "" then (.ok base, s)
    else
      match get_available_import_filters env.importCatalog s with
      | (imp, s1, _) =>
        let infilters := get_filter_names imp
        match dlookup infilters name with
        | some canonical => (.ok (base ++ [("FilterName", UnoValue.str canonical)]), s1)
        | none => (.error (.invalidImportFilter name (sortedKeys infilters)), s1)

/-- The path yielded by `TempFileIfNeeded(inpath, suffix="", data=indata)`:
`inpath` itself when truthy, otherwise the fresh temp file holding
`indata`. -/
def resolvedInputPath (env : Env) (inpath : Option String) : String :=
  match inpath with
  | some p => if p = "" then env.tempInName else p
  | none => env.tempInName

/-- `Path(input_path).exists()`: for an explicit truthy `inpath` this asks
the filesystem; a falsy `inpath` resolves to the temp file that
`TempFileIfNeeded` has just created, which therefore exists. -/
def resolvedInputExists (env : Env) (inpath : Option String) : Bool :=
  match inpath with
  | some p => if p = "" then true else env.pathExists p
  | none => true

/-- `uno.systemPathToFileUrl(os.path.abspath(input_path))`. -/
def importUrl (env : Env) (inpath : Option String) : String :=
  env.systemPathToFileUrl (env.abspath (resolvedInputPath env inpath))

/-- The `inpath` shown in the load-failure message (`"<remote file>"` when
falsy). -/
def shownInpath (inpath : Option String) : String :=
  match inpath with
  | some p => if p = "" then "<remote file>" else p
  | none => "<remote file>"

/-- The `infiltername` shown in the load-failure message (`"default"` when
falsy). -/
def shownInfilter (infiltername : Option String) : String :=
  match infiltername with
  | some f => if f = "" then "default" else f
  | none => "default"

/-- The outcome of one `for ii in range(2)` pass: continue to the next
pass, `break` out of the loop (the `except AttributeError` arm), or
propagate an uncaught exception (raised by `refresh`/`getDocumentIndexes`
outside the `AttributeError` case, or by one of the
`indexes.getByIndex(i).update()` calls in the `else:` arm, which the
`try` does not cover). -/
inductive PassStep where
  | next
  | brk
  | failStep (e : String)
deriving DecidableEq

/-- Run one pass of the index-update loop against a pass behaviour. -/
def runRefreshPass : RefreshOutcome → PassStep
  | .attrError => .brk
  | .raises e => .failStep e
  | .indexes updates =>
    match updates.findSome? id with
    | some e => .failStep e
    | none => .next

/-- Lines 238–253, the whole `if update_index:` block: two passes; a
`break` or a completed second pass ends the block normally, an uncaught
exception (returned as `some e`) propagates out of `convert` — note that
this block runs *before* the `try/finally` that closes the document. -/
def runUpdateIndex (doc : Document) : Option String :=
  match runRefreshPass doc.refresh1 with
  | .failStep e => some e
  | .brk => none
  | .next =>
    match runRefreshPass doc.refresh2 with
    | .failStep e => some e
    | _ => none

/-- The path yielded by `TempFileIfNeeded(outpath, "." + convert_to)`:
`outpath` itself when truthy, otherwise a fresh temp file whose name
carries the `"." ++ convert_to` suffix. -/
def resolvedOutputPath (env : Env) (outpath : Option String) (ct : String) : String :=
  match outpath with
  | some p => if p = "" then env.tempOutName ("." ++ ct) else p
  | none => env.tempOutName ("." ++ ct)

/-- `uno.systemPathToFileUrl(os.path.abspath(output_path))`. -/
def exportUrl (env : Env) (outpath : Option String) (ct : String) : String :=
  env.systemPathToFileUrl (env.abspath (resolvedOutputPath env outpath ct))

/-- `os.path.splitext(output_path)[-1]`: the extension (with its dot) of
the last path component, where the leading dots of the component do not
start an extension. -/
def afterLastDot : List Char → Option (List Char)
  | [] => none
  | c :: rest =>
    match afterLastDot rest with
    | some r => some r
    | none => if c = '.' then some rest else none

/-- See `afterLastDot`.  The last path component is the suffix after the
last `'/'`. -/
def splitextExt (p : String) : String :=
  let comp := ((p.toList.reverse.takeWhile (fun c => c ≠ '/')).reverse)
  let rest := comp.drop ((comp.takeWhile (fun c => c = '.')).length)
  match afterLastDot rest with
  | some r => "." ++ String.mk r
  | none => ""

/-- Lines 277–291, filter selection: an explicit `filtername`
(`if filtername is not None:`, so the empty string is still checked) is
validated against the export alias table — an unknown one raises listing
`sorted(available_filter_names)`, a known one is passed on *as given* —
while `None` falls back to `find_filter`, whose failure raises naming both
types. -/
def selectFilter (env : Env) (s : ConvState) (filtername : Option String)
    (import_type export_type : String) : Except ConvErr String × ConvState :=
  match filtername with
  | some fname =>
    match get_available_export_filters env.exportCatalog s with
    | (expf, s1, _) =>
      let available := get_filter_names expf
      if dmem available fname then (.ok fname, s1)
      else (.error (.invalidExportFilter fname (sortedKeys available)), s1)
  | none =>
    match find_filter env.exportCatalog s import_type export_type with
    | (some fname, s1) => (.ok fname, s1)
    | (none, s1) => (.error (.filterResolutionFailure import_type export_type), s1)

/-- Lines 324–340: `output_props` — `FilterName` and `Overwrite` always,
`FilterData` bundling the named options when there are any, then the bare
`FilterOptions` entries. -/
def outputProps (fname : String) (data opts : List (String × ScalarValue)) :
    List (String × UnoValue) :=
  [("FilterName", UnoValue.str fname), ("Overwrite", UnoValue.bool true)]
  ++ (if data.isEmpty then [] else [("FilterData", UnoValue.propSeq data)])
  ++ (opts.map (fun p => (p.1, p.2.toUno)))

/-- Lines 256–346, the body of the `try:` block: classify the document,
resolve the output path (evaluating the suffix `"." + convert_to` first —
a `convert_to` of `None` raises `TypeError` here even when `outpath` is
given), detect the export type (a falsy answer raises naming the
extension), select the export filter, parse the options, command the
store, and finally read back the temp file when `outpath is None`. -/
def convertBody (env : Env) (s : ConvState) (doc : Document) (a : ConvertArgs) :
    Except ConvErr (Option (List Nat)) × ConvState × List Event :=
  match get_doc_type doc.supportedServiceNames with
  | .error _ => (.error .unknownDocumentType, s, [])
  | .ok import_type =>
    match a.convert_to with
    | none => (.error .typeError, s, [])
    | some ct =>
      let output_path := resolvedOutputPath env a.outpath ct
      let export_url := env.systemPathToFileUrl (env.abspath output_path)
      let export_type := env.queryTypeByURL export_url
      if export_type = "" then
        (.error (.unknownExportType (if ct = "" then splitextExt output_path else ct)), s, [])
      else
        match selectFilter env s a.filtername import_type export_type with
        | (.error e, s1) => (.error e, s1, [])
        | (.ok fname, s1) =>
          match parse_filter_options a.filter_options with
          | (efd, efo) =>
            match env.storeResult export_url (outputProps fname efd efo) with
            | some e => (.error (.storeFailure e), s1, [.store export_url])
            | none =>
              match a.outpath with
              | none => (.ok (some (env.readBytes output_path)), s1, [.store export_url])
              | some _ => (.ok none, s1, [.store export_url])

/-- `UnoConverter.convert`, lines 167–349, in source order: build the
input properties (possibly raising for an unknown import filter name),
resolve the input path, check it exists, load the document (a null handle
raises), run the index-update block (an uncaught exception here propagates
*without* closing the document), then run the `try:` body with the
`finally: document.close(True)` appended to the trace on every path
through it. -/
def convert (env : Env) (s : ConvState) (a : ConvertArgs) :
    Except ConvErr (Option (List Nat)) × ConvState × List Event :=
  match buildInputProps env s a.infiltername with
  | (.error e, s1) => (.error e, s1, [])
  | (.ok input_props, s1) =>
    if resolvedInputExists env a.inpath then
      let import_path := importUrl env a.inpath
      match env.load import_path input_props with
      | none =>
        (.error (.documentLoadFailure (shownInpath a.inpath) (shownInfilter a.infiltername)),
          s1, [.loadDocument import_path])
      | some doc =>
        match (if a.update_index then runUpdateIndex doc else none) with
        | some e => (.error (.uncaughtEngineError e), s1, [.loadDocument import_path])
        | none =>
          match convertBody env s1 doc a with
          | (r, s2, ev) => (r, s2, .loadDocument import_path :: (ev ++ [.closeDocument]))
    else (.error (.inputNotFound (resolvedInputPath env a.inpath)), s1, [])

/-! ## Dictionary lemmas -/

theorem dmem_iff_exists_mem (d : Dict) (k : String) :
    dmem d k = true ↔ ∃ v, (k, v) ∈ d := by
  simp only [dmem, List.any_eq_true, beq_iff_eq]
  constructor
  · rintro ⟨⟨a, b⟩, hm, rfl⟩
    exact ⟨b, hm⟩
  · rintro ⟨v, hv⟩
    exact ⟨(k, v), hv, rfl⟩

theorem dlookup_mem {d : Dict} {k v : String} (h : dlookup d k = some v) : (k, v) ∈ d := by
  simp only [dlookup, Option.map_eq_some'] at h
  obtain ⟨⟨a, b⟩, hp, hv⟩ := h
  have hk := List.find?_some hp
  have hm := List.mem_of_find?_eq_some hp
  simp only [beq_iff_eq] at hk
  subst hk
  cases hv
  exact hm

theorem dmem_dlookup {d : Dict} {k : String} (h : dmem d k = true) :
    ∃ v, dlookup d k = some v := by
  simp only [dmem, List.any_eq_true] at h
  obtain ⟨p, hp, he⟩ := h
  cases hf : d.find? (fun q => q.1 == k) with
  | none =>
    exact absurd he (by simpa using List.find?_eq_none.mp hf p hp)
  | some q => exact ⟨q.2, by simp [dlookup, hf]⟩

theorem mem_sortedKeys {d : Dict} {a : String} : a ∈ sortedKeys d ↔ dmem d a = true := by
  unfold sortedKeys
  rw [(List.perm_insertionSort _ _).mem_iff, List.mem_dedup]
  simp only [List.mem_map, dmem, List.any_eq_true, beq_iff_eq]

theorem sorted_sortedKeys (d : Dict) : (sortedKeys d).Sorted (fun a b : String => a ≤ b) :=
  List.sorted_insertionSort _ _

/-! ## Characterization of the alias table -/

theorem mem_addUserData {ud : List String} {acc : Dict} {fname k v : String} :
    (k, v) ∈ addUserData acc fname ud ↔
      (k, v) ∈ acc ∨ (k ∈ ud ∧ userDataKeep k = true ∧ v = fname) := by
  induction ud generalizing acc with
  | nil => simp [addUserData]
  | cons x rest ih =>
    simp only [addUserData]
    rw [ih]
    by_cases hx : userDataKeep x = true
    · simp only [hx, if_true, dinsert, List.mem_cons, Prod.mk.injEq]
      constructor
      · rintro ((⟨rfl, rfl⟩ | h) | ⟨hm, hk, hv⟩)
        · exact Or.inr ⟨Or.inl rfl, hx, rfl⟩
        · exact Or.inl h
        · exact Or.inr ⟨Or.inr hm, hk, hv⟩
      · rintro (h | ⟨(rfl | hm), hk, rfl⟩)
        · exact Or.inl (Or.inr h)
        · exact Or.inl (Or.inl ⟨rfl, rfl⟩)
        · exact Or.inr ⟨hm, hk, rfl⟩
    · simp only [hx, if_false, List.mem_cons]
      constructor
      · rintro (h | ⟨hm, hk, hv⟩)
        · exact Or.inl h
        · exact Or.inr ⟨Or.inr hm, hk, hv⟩
      · rintro (h | ⟨(rfl | hm), hk, hv⟩)
        · exact Or.inl h
        · exact absurd hk hx
        · exact Or.inr ⟨hm, hk, hv⟩

theorem mem_get_filter_names_aux {filters : List FilterDesc} {acc : Dict} {k v : String} :
    (k, v) ∈ get_filter_names_aux acc filters ↔
      (k, v) ∈ acc ∨
        ∃ f ∈ filters, (k = f.Name ∨ (k ∈ f.UserData ∧ userDataKeep k = true)) ∧ v = f.Name := by
  induction filters generalizing acc with
  | nil => simp [get_filter_names_aux]
  | cons flt rest ih =>
    simp only [get_filter_names_aux]
    rw [ih, mem_addUserData]
    simp only [dinsert, List.mem_cons, Prod.mk.injEq]
    constructor
    · rintro (((⟨rfl, rfl⟩ | h) | ⟨hm, hk, rfl⟩) | ⟨f, hf, hor, rfl⟩)
      · exact Or.inr ⟨flt, Or.inl rfl, Or.inl rfl, rfl⟩
      · exact Or.inl h
      · exact Or.inr ⟨flt, Or.inl rfl, Or.inr ⟨hm, hk⟩, rfl⟩
      · exact Or.inr ⟨f, Or.inr hf, hor, rfl⟩
    · rintro (h | ⟨f, (rfl | hf), hor, rfl⟩)
      · exact Or.inl (Or.inl (Or.inr h))
      · rcases hor with rfl | ⟨hm, hk⟩
        · exact Or.inl (Or.inl (Or.inl ⟨rfl, rfl⟩))
        · exact Or.inl (Or.inr ⟨hm, hk, rfl⟩)
      · exact Or.inr ⟨f, hf, hor, rfl⟩

theorem mem_get_filter_names {filters : List FilterDesc} {k v : String} :
    (k, v) ∈ get_filter_names filters ↔
      ∃ f ∈ filters, (k = f.Name ∨ (k ∈ f.UserData ∧ userDataKeep k = true)) ∧ v = f.Name := by
  rw [get_filter_names, mem_get_filter_names_aux]
  simp

theorem userDataKeep_iff {k : String} :
    userDataKeep k = true ↔ k ≠ "" ∧ k ≠ "true" ∧ k.toList.contains '.' = false := by
  simp [userDataKeep, Bool.and_eq_true, Bool.not_eq_true', beq_iff_eq, and_assoc]

/-! ## Claims about the alias table: C3 and C10 -/

/-- C3 (counterexample): the claim says the alias table built by
`get_filter_names` never contains the key `"true"`, whatever the filter
sequence; but a filter whose canonical `Name` is itself `"true"` puts that
key in the table, because the `Name` is added unconditionally. -/
theorem C3_counterexample :
    dmem (get_filter_names [(⟨"true", "", "", []⟩ : FilterDesc)]) "true" = true := by decide

/-- C3 (amended): every key of the alias table is either the canonical
`Name` of one of the filters (added unconditionally, with no exclusion
rules), or a `UserData` alias that passed the exclusion rules — so any
key that is empty, the literal `"true"`, or contains a `"."` can only be
a canonical filter `Name`, never a `UserData` alias. -/
theorem C3_alias_table_keys (filters : List FilterDesc) (k : String)
    (h : dmem (get_filter_names filters) k = true) :
    (∃ f ∈ filters, k = f.Name) ∨
      (k ≠ "" ∧ k ≠ "true" ∧ k.toList.contains '.' = false ∧ ∃ f ∈ filters, k ∈ f.UserData) := by
  rw [dmem_iff_exists_mem] at h
  obtain ⟨v, hv⟩ := h
  rw [mem_get_filter_names] at hv
  obtain ⟨f, hf, hor, rfl⟩ := hv
  rcases hor with rfl | ⟨hm, hk⟩
  · exact Or.inl ⟨f, hf, rfl⟩
  · rw [userDataKeep_iff] at hk
    exact Or.inr ⟨hk.1, hk.2.1, hk.2.2, f, hf, hm⟩

/-- C3 (witness): a regular filter descriptor whose `UserData` alias
`"odt"` keys the table; the characterization applies to it. -/
theorem C3_witness :
    dmem (get_filter_names [(⟨"writer8", "", "", ["odt"]⟩ : FilterDesc)]) "odt" = true ∧
      ((∃ f ∈ [(⟨"writer8", "", "", ["odt"]⟩ : FilterDesc)], "odt" = f.Name) ∨
        ("odt" ≠ "" ∧ "odt" ≠ "true" ∧ "odt".toList.contains '.' = false ∧
          ∃ f ∈ [(⟨"writer8", "", "", ["odt"]⟩ : FilterDesc)], "odt" ∈ f.UserData)) :=
  ⟨by decide, C3_alias_table_keys _ "odt" (by decide)⟩

/-- C10 (counterexample): the claim says the table always maps each
filter's canonical `Name` to itself; but a later filter's `UserData`
alias equal to an earlier filter's `Name` overwrites that binding — here
`"A"` ends up mapped to `"B"`. -/
theorem C10_counterexample :
    dlookup (get_filter_names [(⟨"A", "", "", []⟩ : FilterDesc), ⟨"B", "", "", ["A"]⟩]) "A" =
        some "B" ∧
      (some "B" : Option String) ≠ some "A" := by decide

/-- C10 (amended): each filter's canonical `Name` is always an accepted
lookup key of the table — the `UserData` exclusion rules are never
applied to it, whatever its shape — and it maps to itself provided no
filter's `UserData` contributes that same alias string (a later filter's
`UserData` alias equal to the `Name` may remap it to that filter's
`Name`). -/
theorem C10_name_always_key (filters : List FilterDesc) (f : FilterDesc) (hf : f ∈ filters) :
    dmem (get_filter_names filters) f.Name = true ∧
      ((∀ g ∈ filters, f.Name ∉ g.UserData) →
        dlookup (get_filter_names filters) f.Name = some f.Name) := by
  have hmem : dmem (get_filter_names filters) f.Name = true := by
    rw [dmem_iff_exists_mem]
    exact ⟨f.Name, mem_get_filter_names.mpr ⟨f, hf, Or.inl rfl, rfl⟩⟩
  refine ⟨hmem, fun hnone => ?_⟩
  obtain ⟨v, hv⟩ := dmem_dlookup hmem
  have hpair := dlookup_mem hv
  rw [mem_get_filter_names] at hpair
  obtain ⟨g, hg, hor, rfl⟩ := hpair
  rcases hor with h1 | ⟨h2, _⟩
  · rw [hv, h1]
  · exact absurd h2 (hnone g hg)

/-- C10 (witness): a filter with a `Name` containing a `"."` — which the
`UserData` rules would exclude — is still a key, and maps to itself. -/
theorem C10_witness :
    (⟨"MS Word 97", "", "", []⟩ : FilterDesc) ∈
        [(⟨"impress.Draw", "", "", ["x"]⟩ : FilterDesc), ⟨"MS Word 97", "", "", []⟩] ∧
      dmem (get_filter_names
          [(⟨"impress.Draw", "", "", ["x"]⟩ : FilterDesc), ⟨"MS Word 97", "", "", []⟩])
          "MS Word 97" = true ∧
      dlookup (get_filter_names
          [(⟨"impress.Draw", "", "", ["x"]⟩ : FilterDesc), ⟨"MS Word 97", "", "", []⟩])
          "MS Word 97" = some "MS Word 97" := by
  refine ⟨by decide, ?_⟩
  have := C10_name_always_key
    [(⟨"impress.Draw", "", "", ["x"]⟩ : FilterDesc), ⟨"MS Word 97", "", "", []⟩]
    ⟨"MS Word 97", "", "", []⟩ (by decide)
  exact ⟨this.1, this.2 (by decide)⟩

/-! ## Claim C9: document classification -/

/-- C9: the classifier intersects the document's supported service names
with the fixed `DOC_TYPES` set and returns a member of that intersection
when it is non-empty; when the intersection is empty it raises the
unrecoverable unknown-document-type error. -/
theorem C9_doc_type_classification (names : List String) :
    (docTypeIntersection names ≠ [] →
      ∃ t, get_doc_type names = .ok t ∧ t ∈ docTypeIntersection names ∧
        t ∈ DOC_TYPES ∧ t ∈ names) ∧
    (docTypeIntersection names = [] →
      get_doc_type names =
        .error "The input document is of an unknown document type. This is probably a bug.") := by
  constructor
  · intro h
    obtain ⟨t, ts, hi⟩ := List.exists_cons_of_ne_nil h
    have hmem : t ∈ docTypeIntersection names := by
      rw [hi]; exact List.mem_cons_self t ts
    have hsplit := List.mem_filter.mp hmem
    refine ⟨t, ?_, hmem, hsplit.1, by simpa using hsplit.2⟩
    unfold get_doc_type
    rw [hi]
  · intro h
    unfold get_doc_type
    rw [h]

/-- C9 (witness): a text document's service names classify to the text
document type. -/
theorem C9_witness :
    docTypeIntersection ["com.sun.star.frame.Controller", "com.sun.star.text.TextDocument"] ≠ [] ∧
      ∃ t, get_doc_type ["com.sun.star.frame.Controller", "com.sun.star.text.TextDocument"] = .ok t ∧
        t ∈ docTypeIntersection ["com.sun.star.frame.Controller", "com.sun.star.text.TextDocument"] ∧
        t ∈ DOC_TYPES ∧ t ∈ ["com.sun.star.frame.Controller", "com.sun.star.text.TextDocument"] :=
  ⟨by decide,
    (C9_doc_type_classification
      ["com.sun.star.frame.Controller", "com.sun.star.text.TextDocument"]).1 (by decide)⟩

/-! ## Claim C2: option parsing -/

/-- Correctness of the `maxsplit=1` split: a split result decomposes the
characters at the first `'='`, and a `none` result means the string has
no `'='` at all. -/
theorem splitEqChars_spec (cs : List Char) :
    (∀ n v, splitEqChars cs = some (n, v) → cs = n ++ '=' :: v ∧ '=' ∉ n) ∧
      (splitEqChars cs = none → '=' ∉ cs) := by
  induction cs with
  | nil =>
    exact ⟨fun n v h => Option.noConfusion h, fun _ => List.not_mem_nil '='⟩
  | cons c rest ih =>
    by_cases hc : c = '='
    · subst hc
      refine ⟨fun n v h => ?_, fun h => ?_⟩
      · simp only [splitEqChars, if_pos rfl] at h
        obtain ⟨rfl, rfl⟩ : n = [] ∧ v = rest := by cases h; exact ⟨rfl, rfl⟩
        exact ⟨rfl, List.not_mem_nil '='⟩
      · simp [splitEqChars] at h
    · refine ⟨fun n v h => ?_, fun h => ?_⟩
      · simp only [splitEqChars, if_neg hc] at h
        cases hr : splitEqChars rest with
        | none => rw [hr] at h; cases h
        | some p =>
          obtain ⟨nc, vc⟩ := p
          rw [hr] at h
          obtain ⟨h1, h2⟩ : n = c :: nc ∧ v = vc := by cases h; exact ⟨rfl, rfl⟩
          obtain ⟨hdec, hnot⟩ := ih.1 nc vc hr
          constructor
          · rw [h1, h2, hdec]; rfl
          · rw [h1]
            intro hmem
            rcases List.mem_cons.mp hmem with h' | h'
            · exact hc h'.symm
            · exact hnot h'
      · simp only [splitEqChars, if_neg hc] at h
        cases hr : splitEqChars rest with
        | none =>
          intro hmem
          rcases List.mem_cons.mp hmem with h' | h'
          · exact hc h'.symm
          · exact (ih.2 hr) h'
        | some p =>
          obtain ⟨nc, vc⟩ := p
          rw [hr] at h
          cases h

/-- C2 (counterexample): a bare option string (no `"="`) is *not*
appended as-is: the value coercion also applies to bare options, so
`["true"]` yields the boolean `true` as the `FilterOptions` value, not
the unchanged string `"true"` the claim describes. -/
theorem C2_counterexample :
    (parse_filter_options ["true"]).2 = [("FilterOptions", ScalarValue.bool true)] ∧
      (parse_filter_options_claimed ["true"]).2 = [("FilterOptions", ScalarValue.str "true")] ∧
      (parse_filter_options ["true"]).2 ≠ (parse_filter_options_claimed ["true"]).2 := by decide

/-- C2 (amended): each option string with an `"="` is split at the first
`"="` into a name and a value, the value is coerced (`"false"`/`"true"`
to booleans, a decimal string to an integer, anything else stays a
string) and it becomes an individually keyed named export parameter; each
option string without an `"="` is *also coerced by the same rules* and
appended (in input order) to the bare `FilterOptions` list. -/
theorem C2_option_parsing (opts : List String) :
    ((parse_filter_options opts).1 =
      opts.filterMap (fun o =>
        match (splitEq o).1 with
        | some n => some (n, coerceOptionValue (splitEq o).2)
        | none => none) ∧
    (parse_filter_options opts).2 =
      opts.filterMap (fun o =>
        match (splitEq o).1 with
        | some _ => none
        | none => some ("FilterOptions", coerceOptionValue (splitEq o).2))) ∧
    (∀ o n v, splitEq o = (some n, v) →
      o.toList = n.toList ++ '=' :: v.toList ∧ '=' ∉ n.toList) ∧
    (∀ o, (splitEq o).1 = none → ('=' ∉ o.toList ∧ (splitEq o).2 = o)) := by
  refine ⟨?_, ?_, ?_⟩
  · induction opts with
    | nil => exact ⟨rfl, rfl⟩
    | cons o rest ih =>
      cases h : (splitEq o).1 with
      | some n =>
        simp [parse_filter_options, List.filterMap_cons, h, ih.1, ih.2]
      | none =>
        simp [parse_filter_options, List.filterMap_cons, h, ih.1, ih.2]
  · intro o n v h
    unfold splitEq at h
    cases hc : splitEqChars o.toList with
    | none => rw [hc] at h; cases h
    | some p =>
      obtain ⟨nc, vc⟩ := p
      rw [hc] at h
      obtain ⟨rfl, rfl⟩ : n = String.mk nc ∧ v = String.mk vc := by
        cases h; exact ⟨rfl, rfl⟩
      obtain ⟨hdec, hnot⟩ := (splitEqChars_spec o.toList).1 nc vc hc
      exact ⟨hdec, hnot⟩
  · intro o h
    unfold splitEq at h ⊢
    cases hc : splitEqChars o.toList with
    | none =>
      refine ⟨(splitEqChars_spec o.toList).2 hc, ?_⟩
      rfl
    | some p =>
      obtain ⟨nc, vc⟩ := p
      rw [hc] at h
      cases h

/-- C2 (witness): the split decomposition at `"Bar=3"` and the bare case
at `"JustAValue"`, via the parsing theorem. -/
theorem C2_witness :
    ("Bar=3".toList = "Bar".toList ++ '=' :: "3".toList ∧ '=' ∉ "Bar".toList) ∧
      ('=' ∉ "JustAValue".toList ∧ (splitEq "JustAValue").2 = "JustAValue") :=
  ⟨(C2_option_parsing []).2.1 "Bar=3" "Bar" "3" (by decide),
    (C2_option_parsing []).2.2 "JustAValue" (by decide)⟩

/-! ## Claim C6: catalog caching -/

/-- The cache state of a freshly constructed `UnoConverter`: both
`self._import_filters` and `self._export_filters` are `None`. -/
def initConvState : ConvState := ⟨none, none⟩

/-- C6: on a fresh session the first call of each direction's getter
triggers the one catalog query and the second call returns the identical
sequence with no query; and once a cache field is populated the remote
catalog is never re-queried — the getter returns the cached list and
leaves the state unchanged. -/
theorem C6_catalog_caching (importCatalog exportCatalog : List FilterDesc) :
    (get_available_import_filters importCatalog initConvState =
        (importCatalog, ⟨some importCatalog, none⟩, true) ∧
      get_available_import_filters importCatalog
          (get_available_import_filters importCatalog initConvState).2.1 =
        ((get_available_import_filters importCatalog initConvState).1,
          (get_available_import_filters importCatalog initConvState).2.1, false)) ∧
    (get_available_export_filters exportCatalog initConvState =
        (exportCatalog, ⟨none, some exportCatalog⟩, true) ∧
      get_available_export_filters exportCatalog
          (get_available_export_filters exportCatalog initConvState).2.1 =
        ((get_available_export_filters exportCatalog initConvState).1,
          (get_available_export_filters exportCatalog initConvState).2.1, false)) ∧
    (∀ s cached, s.import_filters = some cached →
      get_available_import_filters importCatalog s = (cached, s, false)) ∧
    (∀ s cached, s.export_filters = some cached →
      get_available_export_filters exportCatalog s = (cached, s, false)) := by
  refine ⟨⟨rfl, rfl⟩, ⟨rfl, rfl⟩, ?_, ?_⟩
  · intro s cached h
    unfold get_available_import_filters
    rw [h]
  · intro s cached h
    unfold get_available_export_filters
    rw [h]

/-- C6 (witness): the caching behaviour at a concrete catalog and a
concrete populated state. -/
theorem C6_witness :
    (ConvState.import_filters ⟨some [], some []⟩ = some [] ∧
      get_available_import_filters [(⟨"writer8", "w", "w8", []⟩ : FilterDesc)]
        ⟨some [], some []⟩ = ([], ⟨some [], some []⟩, false)) ∧
    get_available_import_filters [(⟨"writer8", "w", "w8", []⟩ : FilterDesc)] initConvState =
      ([(⟨"writer8", "w", "w8", []⟩ : FilterDesc)],
        ⟨some [(⟨"writer8", "w", "w8", []⟩ : FilterDesc)], none⟩, true) :=
  ⟨⟨rfl, (C6_catalog_caching [(⟨"writer8", "w", "w8", []⟩ : FilterDesc)] []).2.2.1
      ⟨some [], some []⟩ [] rfl⟩,
    (C6_catalog_caching [(⟨"writer8", "w", "w8", []⟩ : FilterDesc)] []).1.1⟩

/-! ## Claim C5: export filter resolution -/

/-- The condition under which `find_filter`'s loop does not `continue`
past a filter: both its `DocumentService` and its `Type` match. -/
def filterMatches (import_type export_type : String) (f : FilterDesc) : Prop :=
  f.DocumentService = import_type ∧ f.TypeName = export_type

instance (it et : String) (f : FilterDesc) : Decidable (filterMatches it et f) := by
  unfold filterMatches
  infer_instance

theorem find_filter_list_none_iff (filters : List FilterDesc) (it et : String) :
    find_filter_list filters it et = none ↔ ∀ f ∈ filters, ¬ filterMatches it et f := by
  induction filters with
  | nil => simp [find_filter_list]
  | cons f rest ih =>
    by_cases h1 : f.DocumentService = it
    · by_cases h2 : f.TypeName = et
      · simp [find_filter_list, h1, h2, filterMatches, List.forall_mem_cons]
      · simp [find_filter_list, h1, h2, ih, filterMatches, List.forall_mem_cons]
    · simp [find_filter_list, h1, ih, filterMatches, List.forall_mem_cons]

theorem find_filter_list_some_iff (filters : List FilterDesc) (it et n : String) :
    find_filter_list filters it et = some n ↔
      ∃ l1 f l2, filters = l1 ++ f :: l2 ∧ filterMatches it et f ∧ n = f.Name ∧
        ∀ g ∈ l1, ¬ filterMatches it et g := by
  induction filters with
  | nil =>
    constructor
    · intro h; cases h
    · rintro ⟨l1, f, l2, h, -⟩
      exact absurd h.symm (by simp)
  | cons f rest ih =>
    by_cases h1 : f.DocumentService = it
    · by_cases h2 : f.TypeName = et
      · have hm : filterMatches it et f := ⟨h1, h2⟩
        have hL : find_filter_list (f :: rest) it et = some f.Name := by
          simp [find_filter_list, h1, h2]
        rw [hL]
        constructor
        · intro hn
          exact ⟨[], f, rest, rfl, hm, (Option.some.inj hn).symm, by simp⟩
        · rintro ⟨l1, g, l2, heq, hmg, rfl, hnone⟩
          cases l1 with
          | nil =>
            simp only [List.nil_append] at heq
            injection heq with e1 e2
            rw [e1]
          | cons a l1' =>
            simp only [List.cons_append] at heq
            injection heq with e1 e2
            subst e1
            exact absurd hm (hnone f (List.mem_cons_self f l1'))
      · have hnm : ¬ filterMatches it et f := fun hmm => h2 hmm.2
        have hL : find_filter_list (f :: rest) it et = find_filter_list rest it et := by
          simp [find_filter_list, h1, h2]
        rw [hL, ih]
        constructor
        · rintro ⟨l1, g, l2, rfl, hmg, rfl, hnone⟩
          refine ⟨f :: l1, g, l2, rfl, hmg, rfl, ?_⟩
          intro x hx
          rcases List.mem_cons.mp hx with rfl | hx'
          · exact hnm
          · exact hnone x hx'
        · rintro ⟨l1, g, l2, heq, hmg, rfl, hnone⟩
          cases l1 with
          | nil =>
            simp only [List.nil_append] at heq
            injection heq with e1 e2
            subst e1
            exact absurd hmg hnm
          | cons a l1' =>
            simp only [List.cons_append] at heq
            injection heq with e1 e2
            subst e1
            exact ⟨l1', g, l2, e2, hmg, rfl,
              fun x hx => hnone x (List.mem_cons_of_mem f hx)⟩
    · have hnm : ¬ filterMatches it et f := fun hmm => h1 hmm.1
      have hL : find_filter_list (f :: rest) it et = find_filter_list rest it et := by
        simp [find_filter_list, h1]
      rw [hL, ih]
      constructor
      · rintro ⟨l1, g, l2, rfl, hmg, rfl, hnone⟩
        refine ⟨f :: l1, g, l2, rfl, hmg, rfl, ?_⟩
        intro x hx
        rcases List.mem_cons.mp hx with rfl | hx'
        · exact hnm
        · exact hnone x hx'
      · rintro ⟨l1, g, l2, heq, hmg, rfl, hnone⟩
        cases l1 with
        | nil =>
          simp only [List.nil_append] at heq
          injection heq with e1 e2
          subst e1
          exact absurd hmg hnm
        | cons a l1' =>
          simp only [List.cons_append] at heq
          injection heq with e1 e2
          subst e1
          exact ⟨l1', g, l2, e2, hmg, rfl,
            fun x hx => hnone x (List.mem_cons_of_mem f hx)⟩

/-- C5: `find_filter` scans the (possibly cached) export filters in
catalog order and returns the `Name` of the first filter whose
`DocumentService` and `Type` both match; a `some` answer is exactly a
leftmost-match decomposition of the list, a `none` answer is exactly the
absence of any match, and the method operates on the list produced by
`get_available_export_filters` (so on the cached list when one exists). -/
theorem C5_resolve_filter (filters : List FilterDesc) (it et n : String) :
    (find_filter_list filters it et = some n ↔
      ∃ l1 f l2, filters = l1 ++ f :: l2 ∧ filterMatches it et f ∧ n = f.Name ∧
        ∀ g ∈ l1, ¬ filterMatches it et g) ∧
    (find_filter_list filters it et = none ↔ ∀ f ∈ filters, ¬ filterMatches it et f) ∧
    (∀ s : ConvState, find_filter filters s it et =
      (find_filter_list (get_available_export_filters filters s).1 it et,
        (get_available_export_filters filters s).2.1)) :=
  ⟨find_filter_list_some_iff filters it et n,
    find_filter_list_none_iff filters it et,
    fun _ => rfl⟩

/-- C5 (witness): on a two-filter catalog the scan skips the
non-matching first filter and returns the second one's name. -/
theorem C5_witness :
    ∃ l1 f l2,
      ([(⟨"calcA", "calc", "x", []⟩ : FilterDesc), ⟨"writerB", "text", "pdf", []⟩] :
          List FilterDesc) = l1 ++ f :: l2 ∧
        filterMatches "text" "pdf" f ∧ "writerB" = f.Name ∧
        ∀ g ∈ l1, ¬ filterMatches "text" "pdf" g :=
  (C5_resolve_filter
      [(⟨"calcA", "calc", "x", []⟩ : FilterDesc), ⟨"writerB", "text", "pdf", []⟩]
      "text" "pdf" "writerB").1.mp (by decide)

/-! ## Unfolding lemmas for `convert` -/

/-- The import alias table `convert` validates `infiltername` against
(line 201). -/
def importAliasTable (env : Env) (s : ConvState) : Dict :=
  get_filter_names (get_available_import_filters env.importCatalog s).1

/-- The export alias table `convert` validates `filtername` against
(line 278). -/
def exportAliasTable (env : Env) (s : ConvState) : Dict :=
  get_filter_names (get_available_export_filters env.exportCatalog s).1

theorem convert_gate_error (env : Env) (s : ConvState) (a : ConvertArgs)
    (e : ConvErr) (s1 : ConvState)
    (h : buildInputProps env s a.infiltername = (.error e, s1)) :
    convert env s a = (.error e, s1, []) := by
  unfold convert
  rw [h]

theorem convert_input_missing (env : Env) (s : ConvState) (a : ConvertArgs)
    (props : List (String × UnoValue)) (s1 : ConvState)
    (hgate : buildInputProps env s a.infiltername = (.ok props, s1))
    (hex : resolvedInputExists env a.inpath = false) :
    convert env s a = (.error (.inputNotFound (resolvedInputPath env a.inpath)), s1, []) := by
  unfold convert
  rw [hgate]
  simp [hex]

theorem convert_load_failed (env : Env) (s : ConvState) (a : ConvertArgs)
    (props : List (String × UnoValue)) (s1 : ConvState)
    (hgate : buildInputProps env s a.infiltername = (.ok props, s1))
    (hex : resolvedInputExists env a.inpath = true)
    (hload : env.load (importUrl env a.inpath) props = none) :
    convert env s a =
      (.error (.documentLoadFailure (shownInpath a.inpath) (shownInfilter a.infiltername)),
        s1, [.loadDocument (importUrl env a.inpath)]) := by
  unfold convert
  rw [hgate]
  simp [hex, importUrl] at hload ⊢
  rw [hload]

theorem convert_refresh_escape (env : Env) (s : ConvState) (a : ConvertArgs)
    (props : List (String × UnoValue)) (s1 : ConvState) (doc : Document) (e : String)
    (hgate : buildInputProps env s a.infiltername = (.ok props, s1))
    (hex : resolvedInputExists env a.inpath = true)
    (hload : env.load (importUrl env a.inpath) props = some doc)
    (hupd : a.update_index = true)
    (hrun : runUpdateIndex doc = some e) :
    convert env s a =
      (.error (.uncaughtEngineError e), s1, [.loadDocument (importUrl env a.inpath)]) := by
  unfold convert
  rw [hgate]
  simp [hex, importUrl] at hload ⊢
  rw [hload]
  simp [hupd, hrun]

theorem convert_runs_body (env : Env) (s : ConvState) (a : ConvertArgs)
    (props : List (String × UnoValue)) (s1 : ConvState) (doc : Document)
    (hgate : buildInputProps env s a.infiltername = (.ok props, s1))
    (hex : resolvedInputExists env a.inpath = true)
    (hload : env.load (importUrl env a.inpath) props = some doc)
    (hrun : (if a.update_index then runUpdateIndex doc else none) = none) :
    convert env s a =
      ((convertBody env s1 doc a).1, (convertBody env s1 doc a).2.1,
        .loadDocument (importUrl env a.inpath) ::
          ((convertBody env s1 doc a).2.2 ++ [.closeDocument])) := by
  unfold convert
  rw [hgate]
  simp [hex, importUrl] at hload ⊢
  rw [hload]
  simp [hrun]

theorem convertBody_no_close (env : Env) (s : ConvState) (doc : Document) (a : ConvertArgs) :
    Event.closeDocument ∉ (convertBody env s doc a).2.2 := by
  unfold convertBody
  repeat' split
  all_goals try simp
  all_goals repeat' split
  all_goals simp

/-! ## Claim C1: the document handle is closed -/

/-- A document whose index-update calls raise a (non-`AttributeError`)
engine exception. -/
def c1Doc : Document :=
  ⟨["com.sun.star.text.TextDocument"], .raises "boom", .raises "boom"⟩

/-- An environment whose load succeeds with `c1Doc`. -/
def c1Env : Env := {
  importCatalog := [], exportCatalog := [],
  pathExists := fun _ => true, abspath := id, systemPathToFileUrl := id,
  load := fun _ _ => some c1Doc,
  queryTypeByURL := fun _ => "pdf_t",
  storeResult := fun _ _ => none,
  tempInName := "tmpin", tempOutName := fun sfx => "tmpout" ++ sfx,
  readBytes := fun _ => [] }

/-- The arguments of the C1 counterexample run: a plain conversion with
`update_index` left at its default `True`. -/
def c1Args : ConvertArgs := ⟨some "in.odt", none, none, some "pdf", none, [], true, none⟩

/-- C1 (counterexample): the load is invoked and returns a non-null
handle, but the exception raised by the index-update loop escapes before
the `try/finally` that closes the document, so `convert` raises with no
close on the trace — the handle is closed zero times, not exactly once. -/
theorem C1_counterexample :
    c1Env.load "in.odt" [("ReadOnly", UnoValue.bool true)] = some c1Doc ∧
      Event.loadDocument "in.odt" ∈ (convert c1Env initConvState c1Args).2.2 ∧
      (convert c1Env initConvState c1Args).1 = .error (.uncaughtEngineError "boom") ∧
      (convert c1Env initConvState c1Args).2.2.count Event.closeDocument = 0 := by decide

/-- C1 (amended): whenever the load returns a non-null handle *and* the
index-update block completes without an uncaught exception (it is skipped,
breaks on `AttributeError`, or succeeds), the handle is closed exactly
once before `convert` returns or raises, whichever of classification,
output resolution, filter selection, option parsing, or export fails; an
uncaught exception in the index-update block itself escapes without
closing the handle. -/
theorem C1_close_exactly_once (env : Env) (s : ConvState) (a : ConvertArgs)
    (props : List (String × UnoValue)) (s1 : ConvState) (doc : Document)
    (hgate : buildInputProps env s a.infiltername = (.ok props, s1))
    (hex : resolvedInputExists env a.inpath = true)
    (hload : env.load (importUrl env a.inpath) props = some doc)
    (hupd : a.update_index = true → runUpdateIndex doc = none) :
    (convert env s a).2.2.count Event.closeDocument = 1 ∧
      Event.loadDocument (importUrl env a.inpath) ∈ (convert env s a).2.2 := by
  have hrun : (if a.update_index then runUpdateIndex doc else none) = none := by
    cases hu : a.update_index
    · rfl
    · simpa using hupd hu
  rw [convert_runs_body env s a props s1 doc hgate hex hload hrun]
  constructor
  · simp [List.count_cons, List.count_append,
      List.count_eq_zero.mpr (convertBody_no_close env s1 doc a)]
  · simp

/-- The document of the C1 witness run: indexes update cleanly on both
passes. -/
def c1wDoc : Document :=
  ⟨["com.sun.star.text.TextDocument"], .indexes [none], .indexes [none, none]⟩

/-- An environment for a fully successful conversion of `c1wDoc`. -/
def c1wEnv : Env := {
  importCatalog := [],
  exportCatalog := [⟨"writer_pdf_Export", "com.sun.star.text.TextDocument", "pdf_t", []⟩],
  pathExists := fun _ => true, abspath := id, systemPathToFileUrl := id,
  load := fun _ _ => some c1wDoc,
  queryTypeByURL := fun _ => "pdf_t",
  storeResult := fun _ _ => none,
  tempInName := "tmpin", tempOutName := fun sfx => "tmpout" ++ sfx,
  readBytes := fun _ => [37, 80, 68, 70] }

/-- C1 (witness): on a successful run the trace holds the load and
exactly one close. -/
theorem C1_witness :
    (convert c1wEnv initConvState
        ⟨some "in.odt", none, none, some "pdf", none, [], true, none⟩).2.2.count
        Event.closeDocument = 1 ∧
      Event.loadDocument
          (importUrl c1wEnv (some "in.odt")) ∈
        (convert c1wEnv initConvState
          ⟨some "in.odt", none, none, some "pdf", none, [], true, none⟩).2.2 :=
  C1_close_exactly_once c1wEnv initConvState
    ⟨some "in.odt", none, none, some "pdf", none, [], true, none⟩
    [("ReadOnly", UnoValue.bool true)] initConvState c1wDoc rfl rfl rfl (fun _ => rfl)

/-! ## Claim C8: missing input file -/

/-- C8: when the resolved input path (an explicit, non-empty `inpath`)
does not exist on disk, the trace never contains a load — the existence
check strictly precedes the load — and, whenever the import-filter gate
passes, the error raised is precisely the input-not-found error for that
path. -/
theorem C8_input_not_found (env : Env) (s : ConvState) (a : ConvertArgs) (p : String)
    (hp : a.inpath = some p) (hne : p ≠ "")
    (hex : env.pathExists p = false) :
    (convert env s a).2.2 = [] ∧
      (∀ props s1, buildInputProps env s a.infiltername = (.ok props, s1) →
        convert env s a = (.error (.inputNotFound p), s1, [])) := by
  have hre : resolvedInputExists env a.inpath = false := by
    rw [hp]
    simp [resolvedInputExists, hne, hex]
  have hrp : resolvedInputPath env a.inpath = p := by
    rw [hp]
    simp [resolvedInputPath, hne]
  constructor
  · rcases hc : buildInputProps env s a.infiltername with ⟨r, s1⟩
    cases r with
    | error e => rw [convert_gate_error env s a e s1 hc]
    | ok props => rw [convert_input_missing env s a props s1 hc hre]
  · intro props s1 hg
    rw [convert_input_missing env s a props s1 hg hre, hrp]

/-- An environment whose filesystem holds no files. -/
def c8Env : Env := {
  importCatalog := [], exportCatalog := [],
  pathExists := fun _ => false, abspath := id, systemPathToFileUrl := id,
  load := fun _ _ => some c1wDoc,
  queryTypeByURL := fun _ => "pdf_t",
  storeResult := fun _ _ => none,
  tempInName := "tmpin", tempOutName := fun sfx => "tmpout" ++ sfx,
  readBytes := fun _ => [] }

/-- C8 (witness): a missing `missing.odt` aborts with the
input-not-found error and an empty trace. -/
theorem C8_witness :
    (convert c8Env initConvState
        ⟨some "missing.odt", none, none, some "pdf", none, [], true, none⟩).2.2 = [] ∧
      (∀ props s1,
        buildInputProps c8Env initConvState
            (ConvertArgs.infiltername
              ⟨some "missing.odt", none, none, some "pdf", none, [], true, none⟩) =
          (.ok props, s1) →
        convert c8Env initConvState
            ⟨some "missing.odt", none, none, some "pdf", none, [], true, none⟩ =
          (.error (.inputNotFound "missing.odt"), s1, [])) :=
  C8_input_not_found c8Env initConvState
    ⟨some "missing.odt", none, none, some "pdf", none, [], true, none⟩
    "missing.odt" rfl (by decide) rfl

/-! ## Claim C7: invalid filter names -/

/-- C7: a caller-supplied import filter name absent from the import alias
table aborts with the invalid-import-filter error, before any document
load is attempted (the trace is empty), and a caller-supplied export
filter name absent from the export alias table aborts with the
invalid-export-filter error; in both cases the error carries exactly the
table's keys, sorted. -/
theorem C7_invalid_filter_names (env : Env) (s : ConvState) (a : ConvertArgs) :
    (∀ n, a.infiltername = some n → n ≠ "" →
      dlookup (importAliasTable env s) n = none →
      ((convert env s a).1 = .error (.invalidImportFilter n (sortedKeys (importAliasTable env s))) ∧
        (convert env s a).2.2 = [] ∧
        (sortedKeys (importAliasTable env s)).Sorted (fun x y : String => x ≤ y) ∧
        (∀ x, x ∈ sortedKeys (importAliasTable env s) ↔
          dmem (importAliasTable env s) x = true))) ∧
    (∀ props s1 doc it ct fname,
      buildInputProps env s a.infiltername = (.ok props, s1) →
      resolvedInputExists env a.inpath = true →
      env.load (importUrl env a.inpath) props = some doc →
      (if a.update_index then runUpdateIndex doc else none) = none →
      get_doc_type doc.supportedServiceNames = .ok it →
      a.convert_to = some ct →
      env.queryTypeByURL (exportUrl env a.outpath ct) ≠ "" →
      a.filtername = some fname →
      dmem (exportAliasTable env s1) fname = false →
      ((convert env s a).1 =
          .error (.invalidExportFilter fname (sortedKeys (exportAliasTable env s1))) ∧
        (sortedKeys (exportAliasTable env s1)).Sorted (fun x y : String => x ≤ y) ∧
        (∀ x, x ∈ sortedKeys (exportAliasTable env s1) ↔
          dmem (exportAliasTable env s1) x = true))) := by
  constructor
  · intro n hin hne hlookup
    have hgate : buildInputProps env s a.infiltername =
        (.error (.invalidImportFilter n (sortedKeys (importAliasTable env s))),
          (get_available_import_filters env.importCatalog s).2.1) := by
      rw [hin]
      unfold buildInputProps
      simp only [importAliasTable] at hlookup
      simp [hne, hlookup]
      rfl
    rw [convert_gate_error env s a _ _ hgate]
    exact ⟨rfl, rfl, sorted_sortedKeys _, fun x => mem_sortedKeys⟩
  · intro props s1 doc it ct fname hgate hex hload hrun hdoc hct hq hfn hdm
    have hbody : convertBody env s1 doc a =
        (.error (.invalidExportFilter fname (sortedKeys (exportAliasTable env s1))),
          (get_available_export_filters env.exportCatalog s1).2.1, []) := by
      unfold convertBody
      rw [hdoc, hct]
      simp only [exportUrl] at hq
      simp only [hq, if_false, if_neg hq]
      unfold selectFilter
      rw [hfn]
      simp only [exportAliasTable] at hdm
      simp [hdm]
      rfl
    rw [convert_runs_body env s a props s1 doc hgate hex hload hrun, hbody]
    exact ⟨rfl, sorted_sortedKeys _, fun x => mem_sortedKeys⟩

/-- The document of the C7 witness run. -/
def c7Doc : Document :=
  ⟨["com.sun.star.text.TextDocument"], .attrError, .attrError⟩

/-- An environment for the C7 witness: one import filter with an alias,
one export filter. -/
def c7Env : Env := {
  importCatalog := [⟨"writer8", "com.sun.star.text.TextDocument", "writer8_t", ["odt"]⟩],
  exportCatalog := [⟨"writer_pdf_Export", "com.sun.star.text.TextDocument", "pdf_t", []⟩],
  pathExists := fun _ => true, abspath := id, systemPathToFileUrl := id,
  load := fun _ _ => some c7Doc,
  queryTypeByURL := fun _ => "pdf_t",
  storeResult := fun _ _ => none,
  tempInName := "tmpin", tempOutName := fun sfx => "tmpout" ++ sfx,
  readBytes := fun _ => [] }

/-- C7 (witness): an unknown import filter name aborts with an empty
trace and the sorted-key list; an unknown export filter name aborts with
the sorted-key list of the export table. -/
theorem C7_witness :
    ((convert c7Env initConvState
          ⟨some "in.odt", none, none, some "pdf", none, [], true, some "nope"⟩).1 =
        .error (.invalidImportFilter "nope"
          (sortedKeys (importAliasTable c7Env initConvState))) ∧
      (convert c7Env initConvState
          ⟨some "in.odt", none, none, some "pdf", none, [], true, some "nope"⟩).2.2 = [] ∧
      (sortedKeys (importAliasTable c7Env initConvState)).Sorted (fun x y : String => x ≤ y) ∧
      (∀ x, x ∈ sortedKeys (importAliasTable c7Env initConvState) ↔
        dmem (importAliasTable c7Env initConvState) x = true)) ∧
    ((convert c7Env initConvState
          ⟨some "in.odt", none, none, some "pdf", some "badf", [], true, none⟩).1 =
        .error (.invalidExportFilter "badf"
          (sortedKeys (exportAliasTable c7Env initConvState))) ∧
      (sortedKeys (exportAliasTable c7Env initConvState)).Sorted (fun x y : String => x ≤ y) ∧
      (∀ x, x ∈ sortedKeys (exportAliasTable c7Env initConvState) ↔
        dmem (exportAliasTable c7Env initConvState) x = true)) :=
  ⟨(C7_invalid_filter_names c7Env initConvState
      ⟨some "in.odt", none, none, some "pdf", none, [], true, some "nope"⟩).1
      "nope" rfl (by decide) (by decide),
    (C7_invalid_filter_names c7Env initConvState
      ⟨some "in.odt", none, none, some "pdf", some "badf", [], true, none⟩).2
      [("ReadOnly", UnoValue.bool true)] initConvState c7Doc
      "com.sun.star.text.TextDocument" "pdf" "badf"
      rfl rfl rfl rfl (by decide) rfl (by decide) rfl (by decide)⟩

/-! ## Claim C4: result delivery -/

/-- C4: a run in which every stage succeeds returns rather than raises;
when `outpath` is `None` the returned value is the byte content of the
temp output file that was the store's target, and when a non-empty
`outpath` was supplied the store's target is exactly that path and
nothing (`none`) is returned. -/
theorem C4_output_delivery (env : Env) (s : ConvState) (a : ConvertArgs)
    (props : List (String × UnoValue)) (s1 : ConvState) (doc : Document)
    (it ct fname : String) (s2 : ConvState)
    (hgate : buildInputProps env s a.infiltername = (.ok props, s1))
    (hex : resolvedInputExists env a.inpath = true)
    (hload : env.load (importUrl env a.inpath) props = some doc)
    (hrun : (if a.update_index then runUpdateIndex doc else none) = none)
    (hdoc : get_doc_type doc.supportedServiceNames = .ok it)
    (hct : a.convert_to = some ct)
    (hq : env.queryTypeByURL (exportUrl env a.outpath ct) ≠ "")
    (hsel : selectFilter env s1 a.filtername it
        (env.queryTypeByURL (exportUrl env a.outpath ct)) = (.ok fname, s2))
    (hstore : env.storeResult (exportUrl env a.outpath ct)
        (outputProps fname (parse_filter_options a.filter_options).1
          (parse_filter_options a.filter_options).2) = none) :
    (a.outpath = none →
      convert env s a =
        (.ok (some (env.readBytes (resolvedOutputPath env a.outpath ct))), s2,
          [.loadDocument (importUrl env a.inpath), .store (exportUrl env a.outpath ct),
            .closeDocument])) ∧
    (∀ p, a.outpath = some p → p ≠ "" →
      resolvedOutputPath env a.outpath ct = p ∧
      convert env s a =
        (.ok none, s2,
          [.loadDocument (importUrl env a.inpath), .store (exportUrl env a.outpath ct),
            .closeDocument])) := by
  have hbody : convertBody env s1 doc a =
      ((match a.outpath with
        | none => .ok (some (env.readBytes (resolvedOutputPath env a.outpath ct)))
        | some _ => .ok none),
        s2, [.store (exportUrl env a.outpath ct)]) := by
    unfold convertBody
    rw [hdoc, hct]
    simp only [exportUrl] at hq hsel hstore
    simp [hq, hsel, hstore]
    cases a.outpath <;> rfl
  constructor
  · intro ho
    rw [convert_runs_body env s a props s1 doc hgate hex hload hrun, hbody, ho]
    rfl
  · intro p hp hpne
    constructor
    · rw [hp]
      simp [resolvedOutputPath, hpne]
    · rw [convert_runs_body env s a props s1 doc hgate hex hload hrun, hbody, hp]
      rfl

/-- The document of the C4 witness run. -/
def c4Doc : Document :=
  ⟨["com.sun.star.text.TextDocument"], .attrError, .attrError⟩

/-- An environment for two fully successful conversions. -/
def c4Env : Env := {
  importCatalog := [],
  exportCatalog := [⟨"writer_pdf_Export", "com.sun.star.text.TextDocument", "pdf_t", []⟩],
  pathExists := fun _ => true, abspath := id, systemPathToFileUrl := id,
  load := fun _ _ => some c4Doc,
  queryTypeByURL := fun _ => "pdf_t",
  storeResult := fun _ _ => none,
  tempInName := "tmpin", tempOutName := fun sfx => "tmpout" ++ sfx,
  readBytes := fun _ => [37, 80, 68, 70] }

/-- C4 (witness): with no `outpath` the converted bytes come back; with
`outpath = "/out.pdf"` the store targets `/out.pdf` and nothing comes
back. -/
theorem C4_witness :
    (convert c4Env initConvState
        ⟨some "in.odt", none, none, some "pdf", none, [], false, none⟩ =
      (.ok (some (c4Env.readBytes (resolvedOutputPath c4Env none "pdf"))),
        ⟨none, some c4Env.exportCatalog⟩,
        [.loadDocument (importUrl c4Env (some "in.odt")),
          .store (exportUrl c4Env none "pdf"), .closeDocument])) ∧
    (resolvedOutputPath c4Env (some "/out.pdf") "pdf" = "/out.pdf" ∧
      convert c4Env initConvState
          ⟨some "in.odt", none, some "/out.pdf", some "pdf", none, [], false, none⟩ =
        (.ok none, ⟨none, some c4Env.exportCatalog⟩,
          [.loadDocument (importUrl c4Env (some "in.odt")),
            .store (exportUrl c4Env (some "/out.pdf") "pdf"), .closeDocument])) :=
  ⟨(C4_output_delivery c4Env initConvState
      ⟨some "in.odt", none, none, some "pdf", none, [], false, none⟩
      [("ReadOnly", UnoValue.bool true)] initConvState c4Doc
      "com.sun.star.text.TextDocument" "pdf" "writer_pdf_Export"
      ⟨none, some c4Env.exportCatalog⟩
      rfl rfl rfl rfl (by decide) rfl (by decide) (by decide) rfl).1 rfl,
    (C4_output_delivery c4Env initConvState
      ⟨some "in.odt", none, some "/out.pdf", some "pdf", none, [], false, none⟩
      [("ReadOnly", UnoValue.bool true)] initConvState c4Doc
      "com.sun.star.text.TextDocument" "pdf" "writer_pdf_Export"
      ⟨none, some c4Env.exportCatalog⟩
      rfl rfl rfl rfl (by decide) rfl (by decide) (by decide) rfl).2
      "/out.pdf" rfl (by decide)⟩

end Unoserver
